import Mathlib

/-!
Verification of the audio-reactive visualizer (`src/components/Visualizer.tsx`)
against its natural-language specification.

The per-frame update logic is shallowly embedded: the two byte buffers that
the analyser fills each tick become total functions `ℕ → Fin 256`, JavaScript
number arithmetic on the small, exactly-representable constants involved is
modelled over `ℚ`, and the transcendental parts (`Math.sin`/`Math.cos`) are
either carried as oracle parameters when the verified property does not
depend on them, or modelled with `Real.sin` when it does.
-/

namespace Music

/-- One analyser buffer (`freqData` / `timeData` in `animate`): a fixed array
of unsigned 8-bit magnitudes, embedded as a total function so every index
read by the code is in range. -/
def Frame : Type := ℕ → Fin 256

/-- The all-zero frame: what the analyser yields with no audio attached. -/
def zeroFrame : Frame := fun _ => 0

/-- Read one bin of a frame as a rational number. -/
def binQ (f : Frame) (i : ℕ) : ℚ := ((f i : ℕ) : ℚ)

/-- `const bass = (freqData[0] + freqData[2] + freqData[4]) / 3 / 255`
(Visualizer.tsx line 245). Not gated on `isPlaying`. -/
def bass (f : Frame) : ℚ := (binQ f 0 + binQ f 2 + binQ f 4) / 3 / 255

/-- `const treble = (freqData[120] + freqData[150]) / 2 / 255`
(Visualizer.tsx line 246). Not gated on `isPlaying`. -/
def treble (f : Frame) : ℚ := (binQ f 120 + binQ f 150) / 2 / 255

/-- `THREE.MathUtils.lerp(x, y, t) = x + (y - x) * t`, the exponential
smoothing step used for the camera dolly. -/
def lerp (x y t : ℚ) : ℚ := x + (y - x) * t

/-- `const camTargetZ = 240 - (bass * 60)` (line 446), computed from the raw
frame on every tick in every mode. -/
def camTargetZ (f : Frame) : ℚ := 240 - bass f * 60

/-- `camera.position.z = THREE.MathUtils.lerp(camera.position.z, camTargetZ, 0.05)`
(line 447). -/
def camStep (z : ℚ) (f : Frame) : ℚ := lerp z (camTargetZ f) (5/100)

/-- The camera z distance after a sequence of ticks starting from distance
`z` (the camera is created with `camera.position.z = 240`, line 36). -/
def camRun (z : ℚ) : List Frame → ℚ
  | [] => z
  | f :: fs => camRun (camStep z f) fs

/-- `const expansion = gIdx === 0 ? treble * 25 : bass * 35` (line 259),
the per-group ring expansion in ORGANIC_WAVE mode; reads the raw frame,
with no `isPlaying` gate. -/
def ringExpansion (gIdx : ℕ) (f : Frame) : ℚ :=
  if gIdx = 0 then treble f * 25 else bass f * 35

/-- `const fVal = isPlaying ? freqData[i % 128] / 255 : 0` (line 272),
the per-sample spectrum term of the ORGANIC_WAVE rings. -/
def ringFVal (isPlaying : Bool) (f : Frame) (i : ℕ) : ℚ :=
  if isPlaying then binQ f (i % 128) / 255 else 0

/-- `const fIdx = Math.floor(centerDist * 200)` with
`centerDist = Math.abs(i / barCount - 0.5) * 2`, `barCount = 256`
(lines 316-318). -/
def spikeFIdx (i : ℕ) : ℕ := Nat.floor ((|(i : ℚ) / 256 - 1/2| * 2) * 200)

/-- `const fVal = isPlaying ? freqData[fIdx] / 255 : 0` (line 319),
the per-bar spectrum term of SYMMETRIC_SPIKES. -/
def spikeFVal (isPlaying : Bool) (f : Frame) (i : ℕ) : ℚ :=
  if isPlaying then binQ f (spikeFIdx i) / 255 else 0

/-- `val = isPlaying ? (timeData[Math.floor(pIdx * 128)] - 128) / 128 : 0;`
then `val *= 100;` (lines 372-373): the waveform term of the first
BLOCK_EQUALIZER ribbon, where `pIdx = i / 300`. -/
def ribbonWaveVal (isPlaying : Bool) (t : Frame) (i : ℕ) : ℚ :=
  (if isPlaying then (binQ t (Nat.floor ((i : ℚ) / 300 * 128)) - 128) / 128 else 0) * 100

/-- `const fVal = isPlaying ? freqData[Math.floor(pIdx * 100)] / 255 : 0`
(line 375): the spectrum term of the other BLOCK_EQUALIZER ribbons. -/
def ribbonFVal (isPlaying : Bool) (f : Frame) (i : ℕ) : ℚ :=
  if isPlaying then binQ f (Nat.floor ((i : ℚ) / 300 * 100)) / 255 else 0

/-- `const fVal = isPlaying ? freqData[Math.floor((i / count) * 150)] / 255 : 0`
with `count = 48` (line 399): the per-bar spectrum term of SINE_RHYTHM. -/
def eqFVal (isPlaying : Bool) (f : Frame) (i : ℕ) : ℚ :=
  if isPlaying then binQ f (Nat.floor ((i : ℚ) / 48 * 150)) / 255 else 0

/-- `const fIdx = Math.floor(distFromCenter * 150)` with
`distFromCenter = Math.abs(i / 300 - 0.5) * 2` (lines 432-433). -/
def faderFIdx (i : ℕ) : ℕ := Nat.floor ((|(i : ℚ) / 300 - 1/2| * 2) * 150)

/-- `const val = isPlaying ? freqData[fIdx] / 255 : 0` (line 434),
the per-position spectrum term of FADER_DANCE. -/
def faderVal (isPlaying : Bool) (f : Frame) (i : ℕ) : ℚ :=
  if isPlaying then binQ f (faderFIdx i) / 255 else 0

/-- `const barHeight = Math.max(2, fVal * 160)` (line 400): the SINE_RHYTHM
bar height. -/
def barHeight (isPlaying : Bool) (f : Frame) (i : ℕ) : ℚ :=
  max 2 (eqFVal isPlaying f i * 160)

/-- A concrete paused-state frame: full magnitude in bin 0, silence elsewhere
(an analyser paused mid-beat still reports its decaying spectrum). -/
def spikeFrame : Frame := fun i => if i = 0 then ⟨255, by omega⟩ else ⟨0, by omega⟩

/-- The mode enumeration from `src/types.ts`. -/
inductive VizMode
  | ORGANIC_WAVE
  | SYMMETRIC_SPIKES
  | BLOCK_EQUALIZER
  | SINE_RHYTHM
  | FADER_DANCE
deriving DecidableEq

/-- An RGB color with rational channels (`THREE.Color`). -/
structure Col where
  r : ℚ
  g : ℚ
  b : ℚ
deriving DecidableEq

/-- `THREE.Color.lerp(target, alpha)`: each channel moves by
`(target - current) * alpha`. -/
def colLerp (c t : Col) (k : ℚ) : Col :=
  ⟨c.r + (t.r - c.r) * k, c.g + (t.g - c.g) * k, c.b + (t.b - c.b) * k⟩

/-- `n` repeated smoothing steps toward target `t` with factor `k`. -/
def smoothIter (t : Col) (k : ℚ) : ℕ → Col → Col
  | 0, c => c
  | n + 1, c => smoothIter t k n (colLerp c t k)

/-- The shared per-tick retint (lines 248-254): in every mode except
FADER_DANCE and SYMMETRIC_SPIKES, each material with a color whose object
name contains neither "peak" nor "nodes" is lerped toward the active color
with factor 0.08; all other materials are left untouched. `isHighlight`
abbreviates the name test `name.includes("peak") || name.includes("nodes")`. -/
def retintStep (mode : VizMode) (isHighlight : Bool) (c active : Col) : Col :=
  if mode ≠ VizMode.FADER_DANCE ∧ mode ≠ VizMode.SYMMETRIC_SPIKES ∧ isHighlight = false
  then colLerp c active (8/100)
  else c

/-- `new THREE.Color('#9D00FF').lerp(new THREE.Color('#FF0000'), fVal)`
(line 406): `#9D00FF = (157/255, 0, 1)` and `#FF0000 = (1, 0, 0)`. -/
def barColor (fVal : ℚ) : Col := colLerp ⟨157/255, 0, 1⟩ ⟨1, 0, 0⟩ fVal

/-- `THREE.Color.copy`: the destination color is replaced by the source. -/
def copyColor (c src : Col) : Col := src

/-- The full per-tick color pipeline of a SINE_RHYTHM bar material: the
shared retint of lines 248-254 followed by the overwrite
`(bar.material as THREE.MeshBasicMaterial).color.copy(barCol)` of line 407. -/
def barTickColor (c active : Col) (fVal : ℚ) : Col :=
  copyColor (retintStep VizMode.SINE_RHYTHM false c active) (barColor fVal)

/-- Per-bar peak-hold state (`peaksRef`, line 23): `{y: number, vel: number}`. -/
structure Peak where
  y : ℚ
  vel : ℚ
deriving DecidableEq

/-- `const gravity = 0.6` (line 397). -/
def gravity : ℚ := 6/10

/-- One tick of the SINE_RHYTHM peak indicator physics (lines 412-419):
snap up with zero velocity when the bar top exceeds the stored height,
otherwise `vel -= gravity; y += vel`, then clamp `y` at the floor −80. -/
def peakStep (barTopY : ℚ) (p : Peak) : Peak :=
  let p1 : Peak :=
    if barTopY > p.y then { y := barTopY, vel := 0 }
    else { y := p.y + (p.vel - gravity), vel := p.vel - gravity }
  if p1.y < -80 then { y := -80, vel := p1.vel } else p1

/-- Modelled from the spec (section 4.3, EQ_BARS): the peak-hold law as the
spec words it — if the bar top exceeds the stored peak it snaps up to it and
velocity resets to zero, otherwise the peak falls under constant
deceleration, with the height clamped at the floor. Written to be compared
with `peakStep`, the embedding of the code. -/
def peakSpecStep (barTopY : ℚ) (p : Peak) : Peak :=
  if barTopY > p.y then { y := max barTopY (-80), vel := 0 }
  else { y := max (p.y + (p.vel - gravity)) (-80), vel := p.vel - gravity }

/-- `curr > prev && curr > next` with wrap-around neighbours
(lines 284-287): index `i` of the 256-sample angular sequence `a` is a
local maximum. -/
def isPeakAt (a : ℕ → ℚ) (i : ℕ) : Prop :=
  a ((i + 255) % 256) < a i ∧ a ((i + 1) % 256) < a i

/-- `curr < prev && curr < next` with wrap-around neighbours (line 288). -/
def isTroughAt (a : ℕ → ℚ) (i : ℕ) : Prop :=
  a i < a ((i + 255) % 256) ∧ a i < a ((i + 1) % 256)

instance (a : ℕ → ℚ) (i : ℕ) : Decidable (isPeakAt a i) := by
  unfold isPeakAt; infer_instance

instance (a : ℕ → ℚ) (i : ℕ) : Decidable (isTroughAt a i) := by
  unfold isTroughAt; infer_instance

/-- Index `i` carries the unique strict global maximum of the first 256
samples of `a`. -/
def singleStrictMaxAt (a : ℕ → ℚ) (i : ℕ) : Prop :=
  ∀ j, j < 256 → j ≠ i → a j < a i

instance (a : ℕ → ℚ) (i : ℕ) : Decidable (singleStrictMaxAt a i) := by
  unfold singleStrictMaxAt; infer_instance

/-- An angular sequence whose strict global maximum sits at index 0 while a
second, smaller local bump sits at index 2. -/
def twoBump : ℕ → ℚ := fun j => if j = 0 then 5 else if j = 2 then 3 else 0

/-- A constant baseline `b` raised by `d` at the single index `i`: the
"single sharp maximum" test sequence of the spec. -/
def impulseSeq (b d : ℚ) (i : ℕ) : ℕ → ℚ := fun j => if j = i then b + d else b

/-- A 3D point of a position buffer. -/
structure Pt where
  x : ℚ
  y : ℚ
  z : ℚ
deriving DecidableEq

/-- One iteration of the ORGANIC_WAVE highlight scan (lines 283-296): when
sample `i` is a local extremum and a slot is free, the next slot of the
64-point buffer receives `(cos θ · r, sin θ · r, 0)`; `cosA`/`sinA` stand
for `Math.cos`/`Math.sin` of the sample angle, carried as oracles. -/
def ringNodeStep (a cosA sinA : ℕ → ℚ) (st : (Fin 64 → Pt) × ℕ) (i : ℕ) :
    (Fin 64 → Pt) × ℕ :=
  if isPeakAt a i ∨ isTroughAt a i then
    if h : st.2 < 64 then
      (Function.update st.1 ⟨st.2, h⟩ ⟨cosA i * a i, sinA i * a i, 0⟩, st.2 + 1)
    else st
  else st

/-- The full ORGANIC_WAVE highlight scan over the 256 radial samples,
starting from the buffer contents left by the previous frame. -/
def ringNodePass (a cosA sinA : ℕ → ℚ) (init : Fin 64 → Pt) : (Fin 64 → Pt) × ℕ :=
  (List.range 256).foldl (ringNodeStep a cosA sinA) (init, 0)

/-- The scan followed by the parking loop
`for (let k = nodeCount; k < 64; k++) nodePos[k*3+2] = -5000` (line 297):
every slot from the assigned count upward has only its z overwritten. -/
def ringHighlightFrame (a cosA sinA : ℕ → ℚ) (init : Fin 64 → Pt) : Fin 64 → Pt :=
  fun k =>
    if (ringNodePass a cosA sinA init).2 ≤ k.val then
      { (ringNodePass a cosA sinA init).1 k with z := -5000 }
    else (ringNodePass a cosA sinA init).1 k

/-- One iteration of the BLOCK_EQUALIZER node selection (lines 381-386) for
the base layer of one ribbon group: every 6th sample whose amplitude exceeds
the threshold 25 fills the next free slot of the 48-point buffer. `val`,
`xo`, `zo` are the per-sample amplitude and coordinates computed by the
ribbon loop. -/
def ribbonNodeStep (val xo zo : ℕ → ℚ) (st : (Fin 48 → Pt) × ℕ) (i : ℕ) :
    (Fin 48 → Pt) × ℕ :=
  if i % 6 = 0 then
    if h : st.2 < 48 then
      if 25 < |val i| then
        (Function.update st.1 ⟨st.2, h⟩ ⟨xo i, val i, zo i⟩, st.2 + 1)
      else st
    else st
  else st

/-- The full node selection over the 300 base-layer samples of one ribbon
group. -/
def ribbonNodePass (val xo zo : ℕ → ℚ) (init : Fin 48 → Pt) : (Fin 48 → Pt) × ℕ :=
  (List.range 300).foldl (ribbonNodeStep val xo zo) (init, 0)

/-- The selection followed by the parking loop
`for (let k = nodeIdx; k < 48; k++) nodePos[k*3+2] = -5000` (line 390). -/
def ribbonHighlightFrame (val xo zo : ℕ → ℚ) (init : Fin 48 → Pt) : Fin 48 → Pt :=
  fun k =>
    if (ribbonNodePass val xo zo init).2 ≤ k.val then
      { (ribbonNodePass val xo zo init).1 k with z := -5000 }
    else (ribbonNodePass val xo zo init).1 k

/-- One drawable owned by a mode: tracks whether `geometry.dispose()` and
`material.dispose()` have been called on it. -/
structure Drawable where
  geomDisposed : Bool
  matDisposed : Bool
deriving DecidableEq

/-- `clearScene` (lines 45-58): pops every child of the scene it closes
over, calling `dispose` on its geometry and material, and empties the
object list. Returns the emptied scene paired with the released drawables. -/
def clearScene (scene : List Drawable) : List Drawable × List Drawable :=
  ([], scene.map fun _ => ⟨true, true⟩)

/-- Drawables built by `setupMode` per mode: ORGANIC_WAVE builds 2 groups of
16 line loops plus one point cloud; SYMMETRIC_SPIKES the segment set, point
cloud and horizon; BLOCK_EQUALIZER the grid plus 4 groups of 5 lines and one
point cloud; SINE_RHYTHM 48 bars and 48 peak plates; FADER_DANCE 15 layer
lines. -/
def drawableCount : VizMode → ℕ
  | .ORGANIC_WAVE => 2 * (16 + 1)
  | .SYMMETRIC_SPIKES => 3
  | .BLOCK_EQUALIZER => 1 + 4 * (5 + 1)
  | .SINE_RHYTHM => 48 * 2
  | .FADER_DANCE => 15

/-- Fresh drawables for a mode: nothing disposed yet. -/
def buildDrawables (m : VizMode) : List Drawable :=
  List.replicate (drawableCount m) ⟨false, false⟩

/-- The state owned by one run of the `[mode]` effect (lines 29-460). -/
structure SessionState where
  scene : List Drawable
  frameRequested : Bool
  rendererDisposed : Bool

/-- One run of the mode effect: it creates a fresh empty scene and renderer,
runs `setupMode` — which calls `clearScene` on that freshly created scene
and then builds the drawables of the mode — and starts the animation loop. -/
def mountEffect (m : VizMode) : SessionState :=
  let freshScene : List Drawable := []
  { scene := (clearScene freshScene).1 ++ buildDrawables m
    frameRequested := true
    rendererDisposed := false }

/-- The effect cleanup (lines 454-459): `cancelAnimationFrame`, remove the
resize listener, `renderer.dispose()`, remove the canvas. The scene children
are not traversed: no geometry or material `dispose` runs here. Returns the
new state paired with the drawables orphaned exactly as they were. -/
def cleanupEffect (s : SessionState) : SessionState × List Drawable :=
  ({ scene := [], frameRequested := false, rendererDisposed := true }, s.scene)

/-- A mode switch re-runs the effect: cleanup of the old run, then mount of
the new mode. Returns the new state paired with the drawables of the old
mode, in the disposal state in which they were dropped. -/
def modeSwitch (s : SessionState) (m : VizMode) : SessionState × List Drawable :=
  (mountEffect m, (cleanupEffect s).2)

/-- `Math.sin(pIdx * Math.PI)` (line 435): the FADER_DANCE position taper. -/
noncomputable def faderTaper (p : ℝ) : ℝ := Real.sin (p * Real.pi)

/-- The y coordinate of the top point at position `i` (line 437):
`(val * 120 * taper) + yOff + Math.sin(time * 4 + i * 0.05) * 5`. -/
noncomputable def faderTopY (f : Frame) (play : Bool) (time yOff : ℝ) (i : ℕ) : ℝ :=
  ((faderVal play f i : ℚ) : ℝ) * 120 * faderTaper ((i : ℝ) / 300) + yOff +
    Real.sin (time * 4 + (i : ℝ) * (5/100)) * 5

/-- The x coordinate shared by both points at position `i` (line 436):
`(pIdx - 0.5) * 500 + Math.sin(time + yOff) * 10`. -/
noncomputable def faderX (time yOff : ℝ) (i : ℕ) : ℝ :=
  ((i : ℝ) / 300 - 1/2) * 500 + Real.sin (time + yOff) * 10

/-- The pair written for position `i` (lines 438-440): the top point at
buffer index `i` and the bottom point at buffer index `i + 300`, the bottom
y being the negation of the computed y. -/
noncomputable def faderPair (f : Frame) (play : Bool) (time yOff : ℝ) (i : ℕ) :
    (ℝ × ℝ × ℝ) × (ℝ × ℝ × ℝ) :=
  ((faderX time yOff i, faderTopY f play time yOff i, 0),
   (faderX time yOff i, -(faderTopY f play time yOff i), 0))

/-! Helper lemmas. -/

lemma binQ_nonneg (f : Frame) (i : ℕ) : 0 ≤ binQ f i := by
  simp [binQ]

lemma binQ_le (f : Frame) (i : ℕ) : binQ f i ≤ 255 := by
  have h : (f i : ℕ) < 256 := (f i).isLt
  have : ((f i : ℕ) : ℚ) ≤ 255 := by exact_mod_cast Nat.le_of_lt_succ h
  simpa [binQ] using this

lemma bass_bounds (f : Frame) : 0 ≤ bass f ∧ bass f ≤ 1 := by
  have h0 := binQ_nonneg f 0
  have h2 := binQ_nonneg f 2
  have h4 := binQ_nonneg f 4
  have g0 := binQ_le f 0
  have g2 := binQ_le f 2
  have g4 := binQ_le f 4
  rw [bass]
  constructor
  · positivity
  · rw [div_le_one (by norm_num), div_le_iff₀ (by norm_num)]
    linarith

lemma camTarget_bounds (f : Frame) : 180 ≤ camTargetZ f ∧ camTargetZ f ≤ 240 := by
  have h := bass_bounds f
  rw [camTargetZ]
  constructor <;> nlinarith [h.1, h.2]

lemma lerp_between (z y t : ℚ) (h0 : 0 ≤ t) (h1 : t ≤ 1) :
    min z y ≤ lerp z y t ∧ lerp z y t ≤ max z y := by
  rcases le_total z y with h | h
  · refine ⟨le_trans (min_le_left _ _) ?_, le_trans ?_ (le_max_right z y)⟩
    · rw [lerp]; nlinarith
    · rw [lerp]; nlinarith
  · refine ⟨le_trans (min_le_right _ _) ?_, le_trans ?_ (le_max_left z y)⟩
    · rw [lerp]; nlinarith
    · rw [lerp]; nlinarith

lemma camStep_mem (z : ℚ) (f : Frame) (hl : 180 ≤ z) (hu : z ≤ 240) :
    180 ≤ camStep z f ∧ camStep z f ≤ 240 := by
  have ht := camTarget_bounds f
  have hb := lerp_between z (camTargetZ f) (5/100) (by norm_num) (by norm_num)
  rw [camStep]
  exact ⟨le_trans (le_min hl ht.1) hb.1, le_trans hb.2 (max_le hu ht.2)⟩

lemma camRun_mem (fs : List Frame) :
    ∀ z, 180 ≤ z → z ≤ 240 → 180 ≤ camRun z fs ∧ camRun z fs ≤ 240 := by
  induction fs with
  | nil => intro z hl hu; exact ⟨hl, hu⟩
  | cons f fs ih =>
    intro z hl hu
    have h := camStep_mem z f hl hu
    exact ih _ h.1 h.2

lemma ringNodePass_z_inv (a cosA sinA : ℕ → ℚ) (l : List ℕ)
    (st : (Fin 64 → Pt) × ℕ)
    (hinv : ∀ j : Fin 64, j.val < st.2 → (st.1 j).z = 0) :
    ∀ j : Fin 64, j.val < (l.foldl (ringNodeStep a cosA sinA) st).2 →
      ((l.foldl (ringNodeStep a cosA sinA) st).1 j).z = 0 := by
  induction l generalizing st with
  | nil => exact hinv
  | cons i l ih =>
    refine ih (ringNodeStep a cosA sinA st i) ?_
    intro j hj
    by_cases hc : isPeakAt a i ∨ isTroughAt a i
    · by_cases hlt : st.2 < 64
      · simp only [ringNodeStep, if_pos hc, dif_pos hlt] at hj ⊢
        rcases eq_or_ne j (⟨st.2, hlt⟩ : Fin 64) with rfl | hne
        · simp [Function.update_same]
        · have hv : j.val ≠ st.2 := fun h => hne (Fin.ext h)
          have : j.val < st.2 := by omega
          simp [Function.update_noteq hne, hinv j this]
      · simp only [ringNodeStep, if_pos hc, dif_neg hlt] at hj ⊢
        exact hinv j hj
    · simp only [ringNodeStep, if_neg hc] at hj ⊢
      exact hinv j hj

lemma ring_foldl_no_assign (a cosA sinA : ℕ → ℚ) (l : List ℕ)
    (st : (Fin 64 → Pt) × ℕ)
    (h : ∀ i ∈ l, ¬ (isPeakAt a i ∨ isTroughAt a i)) :
    l.foldl (ringNodeStep a cosA sinA) st = st := by
  induction l generalizing st with
  | nil => rfl
  | cons i l ih =>
    have hi : ¬ (isPeakAt a i ∨ isTroughAt a i) := h i (by simp)
    have hl : ∀ i ∈ l, ¬ (isPeakAt a i ∨ isTroughAt a i) := fun i hil => h i (by simp [hil])
    simp only [List.foldl_cons, ringNodeStep, if_neg hi]
    exact ih st hl

lemma ribbon_foldl_no_assign (val xo zo : ℕ → ℚ) (l : List ℕ)
    (st : (Fin 48 → Pt) × ℕ)
    (h : ∀ i ∈ l, ¬ 25 < |val i|) :
    l.foldl (ribbonNodeStep val xo zo) st = st := by
  induction l generalizing st with
  | nil => rfl
  | cons i l ih =>
    have hi : ¬ 25 < |val i| := h i (by simp)
    have hl : ∀ i ∈ l, ¬ 25 < |val i| := fun i hil => h i (by simp [hil])
    have hstep : ribbonNodeStep val xo zo st i = st := by
      by_cases h6 : i % 6 = 0
      · by_cases h48 : st.2 < 48
        · rw [ribbonNodeStep, if_pos h6, dif_pos h48, if_neg hi]
        · rw [ribbonNodeStep, if_pos h6, dif_neg h48]
      · rw [ribbonNodeStep, if_neg h6]
    rw [List.foldl_cons, hstep]
    exact ih st hl

/-! The claims. -/

/-- C1 (corrected), counterexample: with `isPlaying = false` and a stale
nonzero frame, the camera-distance target and the bass-driven ring expansion
differ from their all-zero-frame values, because lines 245-246 and 446
compute `bass`, `treble` and `camTargetZ` from the raw frame with no
`isPlaying` gate. -/
theorem isPlaying_gate_cex :
    camTargetZ spikeFrame ≠ camTargetZ zeroFrame ∧
    ringExpansion 1 spikeFrame ≠ ringExpansion 1 zeroFrame := by
  constructor <;>
    norm_num [camTargetZ, ringExpansion, bass, binQ, spikeFrame, zeroFrame]

/-- C1 (corrected), amended claim: when `isPlaying` is false every
per-sample spectrum term — the `fVal` of each mode and the ribbon waveform
term — evaluates to zero, exactly as for an all-zero frame; the bass/treble
aggregates, the ring expansion and the camera-distance target are outside
this gate. -/
theorem isPlaying_gate_amended :
    ∀ (f : Frame) (i : ℕ),
      ringFVal false f i = 0 ∧ spikeFVal false f i = 0 ∧
      ribbonWaveVal false f i = 0 ∧ ribbonFVal false f i = 0 ∧
      eqFVal false f i = 0 ∧ faderVal false f i = 0 := by
  intro f i
  simp [ringFVal, spikeFVal, ribbonWaveVal, ribbonFVal, eqFVal, faderVal]

/-- C2: one tick of the SINE_RHYTHM peak indicator agrees with the
spec-worded law — snap up to the bar top with zero velocity when the bar top
exceeds the stored height, otherwise fall by `vel -= gravity; y += vel` —
and the resulting height never lies below the floor −80. -/
theorem eq_bars_peak_hold :
    ∀ (top : ℚ) (p : Peak),
      peakStep top p = peakSpecStep top p ∧ -80 ≤ (peakStep top p).y := by
  intro top p
  rw [peakStep, peakSpecStep]
  by_cases h : top > p.y
  · simp only [if_pos h]
    by_cases hc : top < -80
    · simp only [if_pos hc]
      exact ⟨by rw [max_eq_right (le_of_lt hc)], le_refl _⟩
    · simp only [if_neg hc]
      push_neg at hc
      exact ⟨by rw [max_eq_left hc], hc⟩
  · simp only [if_neg h]
    by_cases hc : p.y + (p.vel - gravity) < -80
    · simp only [if_pos hc]
      exact ⟨by rw [max_eq_right (le_of_lt hc)], le_refl _⟩
    · simp only [if_neg hc]
      push_neg at hc
      exact ⟨by rw [max_eq_left hc], hc⟩

/-- C3 (code bug): switching from ORGANIC_WAVE to SINE_RHYTHM re-runs the
effect; the cleanup does cancel the pending tick and dispose the renderer,
but the 34 drawables of the old mode are dropped with neither geometry nor
material disposed — `clearScene`, which would dispose them (last conjunct),
only ever runs on the freshly created empty scene inside `setupMode`. -/
theorem mode_switch_teardown_no_dispose :
    (cleanupEffect (mountEffect .ORGANIC_WAVE)).1.frameRequested = false ∧
    (cleanupEffect (mountEffect .ORGANIC_WAVE)).1.rendererDisposed = true ∧
    (modeSwitch (mountEffect .ORGANIC_WAVE) .SINE_RHYTHM).2 =
      List.replicate 34 ⟨false, false⟩ ∧
    (clearScene (List.replicate 34 ⟨false, false⟩)).2 =
      List.replicate 34 ⟨true, true⟩ := by
  refine ⟨rfl, rfl, ?_, ?_⟩
  · simp [modeSwitch, cleanupEffect, mountEffect, clearScene, buildDrawables,
      drawableCount]
  · simp [clearScene, List.map_replicate]

set_option maxRecDepth 4000 in
/-- C4 (corrected), counterexample: `twoBump` has its unique strict global
maximum at index 0, yet index 2 is also flagged by the local-extrema test of
lines 284-287, so "exactly index i and no other index is flagged" fails for
a sequence with a single strict maximum. -/
theorem rings_extrema_cex :
    singleStrictMaxAt twoBump 0 ∧ isPeakAt twoBump 0 ∧ isPeakAt twoBump 2 := by
  refine ⟨by decide, by decide, by decide⟩

/-- C4 (corrected), amended claim: for a sequence that is constant except
for a single elevated sample at index `i` (the single *sharp* maximum of the
spec), exactly index `i` is flagged — no other index is reported as a peak
or a trough — and a flat sequence yields no flagged index at all. -/
theorem rings_extrema_amended :
    ∀ (b d : ℚ) (i : ℕ), i < 256 → 0 < d →
      (isPeakAt (impulseSeq b d i) i ∧
        ∀ j, j < 256 → j ≠ i →
          ¬ isPeakAt (impulseSeq b d i) j ∧ ¬ isTroughAt (impulseSeq b d i) j) ∧
      (∀ (c : ℚ) (j : ℕ), ¬ isPeakAt (fun _ => c) j ∧ ¬ isTroughAt (fun _ => c) j) := by
  intro b d i hi hd
  have val_at : ∀ j, j ≠ i → impulseSeq b d i j = b := by
    intro j hj; simp [impulseSeq, hj]
  have val_i : impulseSeq b d i i = b + d := by simp [impulseSeq]
  refine ⟨⟨?_, ?_⟩, ?_⟩
  · have hp : (i + 255) % 256 ≠ i := by omega
    have hn : (i + 1) % 256 ≠ i := by omega
    refine ⟨?_, ?_⟩ <;> rw [val_i]
    · rw [val_at _ hp]; linarith
    · rw [val_at _ hn]; linarith
  · intro j hj hne
    have vj : impulseSeq b d i j = b := val_at j hne
    have neigh : ∀ m, impulseSeq b d i m = b ∨ impulseSeq b d i m = b + d := by
      intro m
      by_cases h : m = i
      · right; simp [impulseSeq, h]
      · left; exact val_at m h
    constructor
    · rintro ⟨h1, _⟩
      rw [vj] at h1
      rcases neigh ((j + 255) % 256) with h | h <;> rw [h] at h1 <;> linarith
    · rintro ⟨h1, h2⟩
      rw [vj] at h1 h2
      by_cases hp : (j + 255) % 256 = i
      · have hq : (j + 1) % 256 ≠ i := by omega
        rw [val_at _ hq] at h2; linarith
      · rw [val_at _ hp] at h1; linarith
  · intro c j
    constructor <;> rintro ⟨h1, _⟩ <;> simp at h1

/-- Witness for `rings_extrema_amended` at baseline 0, bump 1, index 3. -/
theorem rings_extrema_amended_witness :
    isPeakAt (impulseSeq 0 1 3) 3 ∧
    ¬ isPeakAt (impulseSeq 0 1 3) 7 ∧ ¬ isPeakAt (fun _ => (4 : ℚ)) 9 := by
  have h := rings_extrema_amended 0 1 3 (by norm_num) (by norm_num)
  exact ⟨h.1.1, (h.1.2 7 (by norm_num) (by norm_num)).1, (h.2 4 9).1⟩

/-- C5 (corrected), counterexample: in FADER_DANCE mode an ordinary
drawable keeps its color unchanged for the whole tick even though it differs
from the active color, while one smoothing step at either end of the claimed
band k ∈ [0.06, 0.08] would move it; and in SINE_RHYTHM the bar material
color ends the tick equal to the amplitude-derived color — here pure red at
full amplitude — rather than one smoothing step toward the active white. -/
theorem retint_mode_gate_cex :
    retintStep VizMode.FADER_DANCE false ⟨0, 0, 0⟩ ⟨1, 1, 1⟩ = ⟨0, 0, 0⟩ ∧
    colLerp ⟨0, 0, 0⟩ ⟨1, 1, 1⟩ (6/100) ≠ ⟨0, 0, 0⟩ ∧
    colLerp ⟨0, 0, 0⟩ ⟨1, 1, 1⟩ (8/100) ≠ ⟨0, 0, 0⟩ ∧
    barTickColor ⟨0, 0, 0⟩ ⟨1, 1, 1⟩ 1 = ⟨1, 0, 0⟩ ∧
    colLerp ⟨0, 0, 0⟩ ⟨1, 1, 1⟩ (8/100) ≠ ⟨1, 0, 0⟩ := by
  refine ⟨?_, ?_, ?_, ?_, ?_⟩ <;>
    norm_num [retintStep, colLerp, barTickColor, copyColor, barColor,
      Col.mk.injEq]

/-- C5 (corrected), amended claim: the smoothing step toward the active
color, with the fixed factor 0.08 (inside the claimed band [0.06, 0.08]),
applies exactly to non-highlight materials in ORGANIC_WAVE, BLOCK_EQUALIZER
and SINE_RHYTHM; FADER_DANCE and SYMMETRIC_SPIKES materials and all
highlight materials are left untouched by it; and in SINE_RHYTHM the bar
material color is subsequently overwritten with the amplitude-derived lerp
between the two fixed bar colors, independent of the incoming color. -/
theorem retint_amended :
    ∀ (c active : Col) (hl : Bool) (fVal : ℚ),
      retintStep VizMode.ORGANIC_WAVE false c active = colLerp c active (8/100) ∧
      retintStep VizMode.BLOCK_EQUALIZER false c active = colLerp c active (8/100) ∧
      retintStep VizMode.SINE_RHYTHM false c active = colLerp c active (8/100) ∧
      retintStep VizMode.FADER_DANCE hl c active = c ∧
      retintStep VizMode.SYMMETRIC_SPIKES hl c active = c ∧
      (∀ m : VizMode, retintStep m true c active = c) ∧
      barTickColor c active fVal = barColor fVal ∧
      (6 : ℚ)/100 ≤ 8/100 ∧ (8 : ℚ)/100 ≤ 8/100 := by
  intro c active hl fVal
  refine ⟨?_, ?_, ?_, ?_, ?_, ?_, rfl, by norm_num, le_refl _⟩
  · simp [retintStep]
  · simp [retintStep]
  · simp [retintStep]
  · simp [retintStep]
  · simp [retintStep]
  · intro m; simp [retintStep]

/-- C6: in ORGANIC_WAVE every highlight slot at or beyond the number of
extrema assigned in the frame ends the tick with z = −5000, and every
assigned slot was written this frame (its z is the freshly written 0, not a
leftover); in BLOCK_EQUALIZER every slot at or beyond the number of
threshold-crossing nodes ends the tick with z = −5000. -/
theorem highlight_parking :
    (∀ (a cosA sinA : ℕ → ℚ) (init : Fin 64 → Pt) (k : Fin 64),
      ((ringNodePass a cosA sinA init).2 ≤ k.val →
        (ringHighlightFrame a cosA sinA init k).z = -5000) ∧
      (k.val < (ringNodePass a cosA sinA init).2 →
        (ringHighlightFrame a cosA sinA init k).z = 0)) ∧
    (∀ (val xo zo : ℕ → ℚ) (init : Fin 48 → Pt) (k : Fin 48),
      (ribbonNodePass val xo zo init).2 ≤ k.val →
      (ribbonHighlightFrame val xo zo init k).z = -5000) := by
  refine ⟨fun a cosA sinA init k => ⟨?_, ?_⟩, fun val xo zo init k => ?_⟩
  · intro h
    rw [ringHighlightFrame, if_pos h]
  · intro h
    rw [ringHighlightFrame, if_neg (by omega)]
    exact ringNodePass_z_inv a cosA sinA (List.range 256) (init, 0)
      (fun j hj => absurd hj (by simp)) k h
  · intro h
    rw [ribbonHighlightFrame, if_pos h]

/-- Witness for `highlight_parking`: on a flat radial sequence and a
below-threshold amplitude sequence no slot is assigned, and slot 0 of each
highlight buffer is parked at z = −5000. -/
theorem highlight_parking_witness :
    (ringHighlightFrame (fun _ => 0) (fun _ => 0) (fun _ => 0)
      (fun _ => ⟨0, 0, 0⟩) ⟨0, by omega⟩).z = -5000 ∧
    (ribbonHighlightFrame (fun _ => 0) (fun _ => 0) (fun _ => 0)
      (fun _ => ⟨0, 0, 0⟩) ⟨0, by omega⟩).z = -5000 := by
  have h1 : (ringNodePass (fun _ => 0) (fun _ => 0) (fun _ => 0)
      (fun _ => (⟨0, 0, 0⟩ : Pt))).2 ≤ 0 := by
    rw [ringNodePass, ring_foldl_no_assign]
    intro i _
    simp [isPeakAt, isTroughAt]
  have h2 : (ribbonNodePass (fun _ => 0) (fun _ => 0) (fun _ => 0)
      (fun _ => (⟨0, 0, 0⟩ : Pt))).2 ≤ 0 := by
    rw [ribbonNodePass, ribbon_foldl_no_assign]
    intro i _
    norm_num
  exact ⟨(highlight_parking.1 _ _ _ _ _).1 h1, highlight_parking.2 _ _ _ _ _ h2⟩

/-- C7: every SINE_RHYTHM bar height is `max 2 (fVal * 160)`, hence at least
the floor 2, and with an all-zero spectrum at `isPlaying = true` each of the
48 bars has height exactly 2 — never zero. -/
theorem eq_bars_floor :
    (∀ (p : Bool) (f : Frame) (i : ℕ),
      barHeight p f i = max 2 (eqFVal p f i * 160) ∧ 2 ≤ barHeight p f i) ∧
    (∀ i : Fin 48, barHeight true zeroFrame i.val = 2) := by
  constructor
  · intro p f i
    exact ⟨rfl, le_max_left _ _⟩
  · intro i
    simp [barHeight, eqFVal, binQ, zeroFrame]

/-- C8: the color smoothing step is idempotent at its fixed point — a color
already equal to the target is unchanged by one step and by any number of
repeated steps, for every smoothing factor. -/
theorem color_smoothing_idempotent :
    ∀ (c : Col) (k : ℚ), colLerp c c k = c ∧ ∀ n : ℕ, smoothIter c k n c = c := by
  intro c k
  have h1 : colLerp c c k = c := by simp [colLerp]
  refine ⟨h1, ?_⟩
  intro n
  induction n with
  | zero => rfl
  | succ n ih =>
    rw [smoothIter, h1]
    exact ih

/-- C9: every FADER_DANCE position writes a mirrored pair — the bottom point
repeats x and carries the exact negation of the computed y; the y amplitude
is the spectrum value times 120 times the taper `sin(position · π)`, which
vanishes at both ends of the strip (positions 0 and 1) and is maximal at the
center; and the additive time-based jitter term has its own phase per
position: distinct positions never share a phase. -/
theorem fader_mirror_taper :
    (∀ (f : Frame) (play : Bool) (time yOff : ℝ) (i : ℕ),
      faderPair f play time yOff i =
        ((faderX time yOff i, faderTopY f play time yOff i, 0),
         (faderX time yOff i, -(faderTopY f play time yOff i), 0))) ∧
    (∀ (f : Frame) (play : Bool) (time yOff : ℝ) (i : ℕ),
      faderTopY f play time yOff i =
        ((faderVal play f i : ℚ) : ℝ) * 120 * Real.sin ((i : ℝ) / 300 * Real.pi) +
          yOff + Real.sin (time * 4 + (i : ℝ) * (5/100)) * 5) ∧
    faderTaper 0 = 0 ∧ faderTaper 1 = 0 ∧
    (∀ p : ℝ, faderTaper p ≤ faderTaper (1/2)) ∧
    (∀ (time : ℝ) (i j : ℕ),
      time * 4 + (i : ℝ) * (5/100) = time * 4 + (j : ℝ) * (5/100) → i = j) := by
  refine ⟨fun _ _ _ _ _ => rfl, fun _ _ _ _ _ => rfl, ?_, ?_, ?_, ?_⟩
  · simp [faderTaper]
  · simp [faderTaper]
  · intro p
    have h : faderTaper (1/2) = 1 := by
      rw [faderTaper, show (1 : ℝ)/2 * Real.pi = Real.pi/2 by ring,
        Real.sin_pi_div_two]
    rw [h]
    exact Real.sin_le_one _
  · intro time i j h
    have : (i : ℝ) = j := by linarith
    exact_mod_cast this

/-- Witness for `fader_mirror_taper`: the taper vanishes at position 0 and
the jitter-phase separation applied at a concrete equal pair of positions. -/
theorem fader_mirror_taper_witness :
    faderTaper 0 = 0 ∧ (37 : ℕ) = 37 :=
  ⟨fader_mirror_taper.2.2.1, fader_mirror_taper.2.2.2.2.2 0 37 37 rfl⟩

/-- C10: the camera-distance target of every tick lies in [180, 240], each
smoothing step stays between the current distance and the target, and from
the initial distance 240 the camera z remains in [180, 240] over every
sequence of ticks. -/
theorem camera_distance_bounded :
    (∀ f : Frame, 180 ≤ camTargetZ f ∧ camTargetZ f ≤ 240) ∧
    (∀ (z : ℚ) (f : Frame),
      min z (camTargetZ f) ≤ camStep z f ∧ camStep z f ≤ max z (camTargetZ f)) ∧
    (∀ fs : List Frame, 180 ≤ camRun 240 fs ∧ camRun 240 fs ≤ 240) := by
  refine ⟨camTarget_bounds, ?_, ?_⟩
  · intro z f
    simpa [camStep] using
      lerp_between z (camTargetZ f) (5/100) (by norm_num) (by norm_num)
  · intro fs
    exact camRun_mem fs 240 (by norm_num) (by norm_num)

end Music
